import Mathlib

/-!
Shallow embedding of the event-serialization and schema-evolution core
(`src/persist/serialized_event.rs`): serialized event records, the upcaster
chain, the typed encode/decode conversions, batch conversion, and the
snapshot reconstruction path, together with proofs of the documented
properties.
-/

set_option maxHeartbeats 1000000

namespace Cqrs

/-- Modelled from the spec: a generic, nested, self-describing structured
value (maps, sequences, scalars), the wire-neutral representation of any
payload or metadata (the role played by the data-interchange library
value type in the source). -/
inductive Value where
  | null
  | bool (b : Bool)
  | num (n : Int)
  | str (s : String)
  | arr (elems : List Value)
  | obj (entries : List (String × Value))

/-- Modelled from the spec: the general persistence error surfaced to
callers, with the encode and decode subkinds (the `PersistenceError`
type lives outside the provided source file). -/
inductive PersistenceError where
  | serializationError (msg : String)
  | deserializationError (msg : String)
deriving Repr, DecidableEq

/-- Typed metadata, a flat string-to-string mapping carried alongside a
domain event. -/
abbrev Metadata := List (String × String)

/-- Modelled from the spec: an aggregate type bundled with its typed event
and state types, its self-describing names/versions, and the structural
codec the serialization layer queries (the `Aggregate`/`DomainEvent`
traits and the structural-value codec live outside the provided source
file). -/
structure Aggregate where
  Event : Type
  State : Type
  aggregate_type : String
  event_type : Event → String
  event_version : Event → String
  encodeEvent : Event → Except PersistenceError Value
  decodeEvent : Value → Except PersistenceError Event
  decodeState : Value → Except PersistenceError State

/-- Modelled from the spec: a typed domain event paired with its stream
identity and metadata (field set as read and written by the source
conversions). -/
structure EventEnvelope (A : Aggregate) where
  aggregate_id : String
  sequence : Nat
  payload : A.Event
  metadata : Metadata

/-- A serialized version of an event with metadata, used by repositories
to store and load events from a database. -/
structure SerializedEvent where
  aggregate_id : String
  sequence : Nat
  aggregate_type : String
  event_type : String
  event_version : String
  payload : Value
  metadata : Value

/-- An upcaster rule: the capability set of the `EventUpcaster` trait
object, a match predicate over the current event type and version and a
total transform of the serialized record. -/
structure EventUpcaster where
  can_upcast : String → String → Bool
  upcast : SerializedEvent → SerializedEvent

/-- The structural encoding of typed metadata into a structured value:
each entry becomes a string-valued map entry. Shaped as a fallible result
to mirror the `?` on the serialization call in the source. -/
def metadataToValue (metadata : Metadata) : Except PersistenceError Value :=
  .ok (.obj (metadata.map (fun kv => (kv.1, .str kv.2))))

/-- Decoding of one map entry list back into typed metadata: every value
must be a string scalar. -/
def metadataEntriesFromValue : List (String × Value) → Except PersistenceError Metadata
  | [] => .ok []
  | (k, .str v) :: rest =>
    match metadataEntriesFromValue rest with
    | .error e => .error e
    | .ok tail => .ok ((k, v) :: tail)
  | (_, _) :: _ => .error (.deserializationError "metadata value must be a string")

/-- The structural decoding of a structured value back into typed
metadata: the value must be a map of string scalars. -/
def metadataFromValue : Value → Except PersistenceError Metadata
  | .obj entries => metadataEntriesFromValue entries
  | _ => .error (.deserializationError "metadata must be a map")

/-- Applies the whole upcaster chain to this record: a left fold over the
rules in order, each rule conditionally replacing the record when its
match predicate holds on the current event type and version
(`SerializedEvent::upcast`, source lines 50-58). -/
def SerializedEvent.upcast (self : SerializedEvent) (upcasters : List EventUpcaster) : SerializedEvent :=
  upcasters.foldl
    (fun event upcaster =>
      if upcaster.can_upcast event.event_type event.event_version then
        upcaster.upcast event
      else
        event)
    self

/-- Encoder: conversion of a typed envelope into a serialized record
(`TryFrom<&EventEnvelope<A>> for SerializedEvent`, source lines 82-101).
The aggregate type name and the payload's self-described type and version
tag the record; payload and metadata are structurally encoded, each `?`
propagating the error. -/
def SerializedEvent.try_from (A : Aggregate) (event : EventEnvelope A) : Except PersistenceError SerializedEvent :=
  match A.encodeEvent event.payload with
  | .error e => .error e
  | .ok payload =>
    match metadataToValue event.metadata with
    | .error e => .error e
    | .ok metadata =>
      .ok { aggregate_id := event.aggregate_id
            sequence := event.sequence
            aggregate_type := A.aggregate_type
            event_type := A.event_type event.payload
            event_version := A.event_version event.payload
            payload := payload
            metadata := metadata }

/-- Decoder: conversion of a serialized record into a typed envelope
(`TryFrom<SerializedEvent> for EventEnvelope<A>`, source lines 131-144).
Only payload, metadata, aggregate id and sequence of the record are
consulted. -/
def EventEnvelope.try_from (A : Aggregate) (event : SerializedEvent) : Except PersistenceError (EventEnvelope A) :=
  match A.decodeEvent event.payload with
  | .error e => .error e
  | .ok payload =>
    match metadataFromValue event.metadata with
    | .error e => .error e
    | .ok metadata =>
      .ok { aggregate_id := event.aggregate_id
            sequence := event.sequence
            payload := payload
            metadata := metadata }

/-- Batch encoding (`serialize_events`, source lines 61-69): the source
loop pushes each converted event and returns at the first error; embedded
as structural recursion with the same first-error, in-order semantics. -/
def serialize_events (A : Aggregate) : List (EventEnvelope A) → Except PersistenceError (List SerializedEvent)
  | [] => .ok []
  | event :: rest =>
    match SerializedEvent.try_from A event with
    | .error e => .error e
    | .ok s =>
      match serialize_events A rest with
      | .error e => .error e
      | .ok tail => .ok (s :: tail)

/-- Inner loop of batch decoding: converts each already-upcast record,
returning at the first error. -/
def deserialize_events_loop (A : Aggregate) : List SerializedEvent → Except PersistenceError (List (EventEnvelope A))
  | [] => .ok []
  | event :: rest =>
    match EventEnvelope.try_from A event with
    | .error e => .error e
    | .ok env =>
      match deserialize_events_loop A rest with
      | .error e => .error e
      | .ok tail => .ok (env :: tail)

/-- Batch decoding (`deserialize_events`, source lines 71-80): every
record is first run through the upcaster chain, then converted to a typed
envelope, with first-error semantics. -/
def deserialize_events (A : Aggregate) (events : List SerializedEvent) (upcasters : List EventUpcaster) :
    Except PersistenceError (List (EventEnvelope A)) :=
  deserialize_events_loop A (events.map (fun event => event.upcast upcasters))

/-- A serialized version of a snapshot, used by repositories to store and
load snapshots from a database. -/
structure SerializedSnapshot where
  aggregate_id : String
  aggregate : Value
  current_sequence : Nat
  current_snapshot : Nat

/-- Modelled from the spec: the typed aggregate load context
(`EventStoreAggregateContext`, declared outside the provided source file;
field set as written by the source conversion at lines 120-128). -/
structure EventStoreAggregateContext (A : Aggregate) where
  aggregate_id : String
  aggregate : A.State
  current_sequence : Nat
  current_snapshot : Option Nat

/-- Snapshot reconstruction (`TryFrom<SerializedSnapshot> for
EventStoreAggregateContext<A>`, source lines 117-129): decodes the stored
state, copies the sequence verbatim and wraps the snapshot revision as
present. -/
def EventStoreAggregateContext.try_from (A : Aggregate) (snapshot : SerializedSnapshot) :
    Except PersistenceError (EventStoreAggregateContext A) :=
  match A.decodeState snapshot.aggregate with
  | .error e => .error e
  | .ok aggregate =>
    .ok { aggregate_id := snapshot.aggregate_id
          aggregate := aggregate
          current_sequence := snapshot.current_sequence
          current_snapshot := some snapshot.current_snapshot }

/-! ### Basic properties of the upcaster chain -/

theorem upcast_nil (s : SerializedEvent) : s.upcast [] = s := rfl

theorem upcast_cons (s : SerializedEvent) (u : EventUpcaster) (us : List EventUpcaster) :
    s.upcast (u :: us) =
      (if u.can_upcast s.event_type s.event_version then u.upcast s else s).upcast us := rfl

theorem upcast_append (s : SerializedEvent) (us vs : List EventUpcaster) :
    s.upcast (us ++ vs) = (s.upcast us).upcast vs := by
  simp [SerializedEvent.upcast, List.foldl_append]

theorem upcast_of_no_match (s : SerializedEvent) (us : List EventUpcaster)
    (h : ∀ u ∈ us, u.can_upcast s.event_type s.event_version = false) :
    s.upcast us = s := by
  induction us with
  | nil => rfl
  | cons u us ih =>
    rw [upcast_cons, if_neg (by simp [h u (List.mem_cons_self u us)])]
    exact ih (fun v hv => h v (List.mem_cons_of_mem u hv))

/-- C2: processing a record through the upcaster chain is a single left
fold over the rules in list order: the empty chain leaves the record
unchanged, each leading rule conditionally replaces the record (based on
its current event type and version) before the remaining rules run, and a
chain split as `us ++ vs` processes `us` completely before `vs` — one
forward pass, with no rule re-evaluated after a later rule changes the
record. -/
theorem C2_upcast_left_fold (s : SerializedEvent) :
    s.upcast [] = s ∧
    (∀ (u : EventUpcaster) (us : List EventUpcaster),
      s.upcast (u :: us) =
        (if u.can_upcast s.event_type s.event_version then u.upcast s else s).upcast us) ∧
    (∀ us vs : List EventUpcaster, s.upcast (us ++ vs) = (s.upcast us).upcast vs) :=
  ⟨upcast_nil s, fun u us => upcast_cons s u us, fun us vs => upcast_append s us vs⟩

/-- C6: a record whose current event type and version no rule in the
chain matches passes through the whole chain unchanged. -/
theorem C6_upcast_idempotence (s : SerializedEvent) (us : List EventUpcaster)
    (h : ∀ u ∈ us, u.can_upcast s.event_type s.event_version = false) :
    s.upcast us = s :=
  upcast_of_no_match s us h

/-- C5: with rule `r1` matching the record at version `v1` and producing
version `v2`, rule `r2` matching at `v2` and producing `v3` but not
matching at `v1`, the chain `[r1, r2]` carries the record to `v3` in one
pass, while the reversed chain `[r2, r1]` leaves it at `v2` — `r2` is not
re-checked after `r1` fires. -/
theorem C5_upcast_order_sensitivity (s : SerializedEvent) (r1 r2 : EventUpcaster)
    (v1 v2 v3 : String)
    (_hv1 : s.event_version = v1)
    (h1 : r1.can_upcast s.event_type s.event_version = true)
    (h2 : (r1.upcast s).event_version = v2)
    (h3 : r2.can_upcast (r1.upcast s).event_type (r1.upcast s).event_version = true)
    (h4 : (r2.upcast (r1.upcast s)).event_version = v3)
    (h5 : r2.can_upcast s.event_type s.event_version = false) :
    (s.upcast [r1, r2]).event_version = v3 ∧
    (s.upcast [r2, r1]).event_version = v2 := by
  constructor
  · rw [upcast_cons, if_pos h1, upcast_cons, if_pos h3, upcast_nil]
    exact h4
  · rw [upcast_cons, if_neg (by simp [h5]), upcast_cons, if_pos h1, upcast_nil]
    exact h2

/-! ### Concrete fixtures used by the witnesses -/

/-- A sample serialized record at schema version 1.0, mirroring the
concrete scenario of the testable-properties section. -/
def accountOpenedV1 : SerializedEvent where
  aggregate_id := "acct-1"
  sequence := 1
  aggregate_type := "Account"
  event_type := "AccountOpened"
  event_version := "1.0"
  payload := .obj [("balance", .num 0)]
  metadata := .obj []

/-- A sample upcaster rule migrating `AccountOpened` from 1.0 to 2.0 and
adding a currency field. -/
def ruleV1toV2 : EventUpcaster where
  can_upcast := fun t v => t == "AccountOpened" && v == "1.0"
  upcast := fun e =>
    { e with
      event_version := "2.0"
      payload := .obj [("balance", .num 0), ("currency", .str "USD")] }

/-- A sample upcaster rule migrating `AccountOpened` from 2.0 to 3.0. -/
def ruleV2toV3 : EventUpcaster where
  can_upcast := fun t v => t == "AccountOpened" && v == "2.0"
  upcast := fun e => { e with event_version := "3.0" }

/-- Witness for C6: the record already at version 2.0 is unmatched by the
1.0 rule and passes through unchanged. -/
theorem C6_upcast_idempotence_witness :
    (∀ u ∈ [ruleV1toV2],
      u.can_upcast (ruleV2toV3.upcast accountOpenedV1).event_type
        (ruleV2toV3.upcast accountOpenedV1).event_version = false) ∧
    (ruleV2toV3.upcast accountOpenedV1).upcast [ruleV1toV2] =
      ruleV2toV3.upcast accountOpenedV1 := by
  refine ⟨?_, C6_upcast_idempotence _ _ ?_⟩ <;>
    · intro u hu
      rcases List.mem_singleton.mp hu with rfl
      decide

/-- Witness for C5: the concrete 1.0 record reaches 3.0 through
`[ruleV1toV2, ruleV2toV3]` but stops at 2.0 through the reversed chain. -/
theorem C5_upcast_order_sensitivity_witness :
    (accountOpenedV1.upcast [ruleV1toV2, ruleV2toV3]).event_version = "3.0" ∧
    (accountOpenedV1.upcast [ruleV2toV3, ruleV1toV2]).event_version = "2.0" :=
  C5_upcast_order_sensitivity accountOpenedV1 ruleV1toV2 ruleV2toV3
    "1.0" "2.0" "3.0" rfl (by decide) rfl (by decide) rfl (by decide)

/-! ### Metadata codec round trip and single-item conversions -/

theorem metadataEntriesFromValue_map (m : Metadata) :
    metadataEntriesFromValue (m.map (fun kv => (kv.1, .str kv.2))) = .ok m := by
  induction m with
  | nil => rfl
  | cons kv m ih => simp [metadataEntriesFromValue, ih]

theorem metadataFromValue_metadataToValue (m : Metadata) (v : Value)
    (h : metadataToValue m = .ok v) : metadataFromValue v = .ok m := by
  simp only [metadataToValue, Except.ok.injEq] at h
  subst h
  simpa [metadataFromValue] using metadataEntriesFromValue_map m

theorem SerializedEvent.try_from_ok (A : Aggregate) (e : EventEnvelope A) (s : SerializedEvent)
    (h : SerializedEvent.try_from A e = .ok s) :
    ∃ pv, A.encodeEvent e.payload = .ok pv ∧
      s = { aggregate_id := e.aggregate_id
            sequence := e.sequence
            aggregate_type := A.aggregate_type
            event_type := A.event_type e.payload
            event_version := A.event_version e.payload
            payload := pv
            metadata := .obj (e.metadata.map (fun kv => (kv.1, .str kv.2))) } := by
  unfold SerializedEvent.try_from at h
  cases hv : A.encodeEvent e.payload with
  | error err => rw [hv] at h; exact absurd h (by simp)
  | ok pv =>
    rw [hv] at h
    simp only [metadataToValue, Except.ok.injEq] at h
    exact ⟨pv, rfl, h.symm⟩

theorem EventEnvelope.try_from_ok_fields (A : Aggregate) (s : SerializedEvent)
    (env : EventEnvelope A) (h : EventEnvelope.try_from A s = .ok env) :
    env.aggregate_id = s.aggregate_id ∧ env.sequence = s.sequence := by
  unfold EventEnvelope.try_from at h
  cases hp : A.decodeEvent s.payload with
  | error err => rw [hp] at h; exact absurd h (by simp)
  | ok payload =>
    rw [hp] at h
    cases hm : metadataFromValue s.metadata with
    | error err => rw [hm] at h; exact absurd h (by simp)
    | ok metadata =>
      rw [hm] at h
      simp only [Except.ok.injEq] at h
      subst h
      exact ⟨rfl, rfl⟩

/-- C1: when a typed envelope encodes successfully and the external
payload codec is lawful on that payload (decoding an encoded payload
gives the payload back), decoding the encoded record after a chain in
which no rule matches — the empty chain included — returns exactly the
original envelope. -/
theorem C1_round_trip (A : Aggregate) (e : EventEnvelope A) (s : SerializedEvent)
    (upcasters : List EventUpcaster)
    (hlaw : ∀ v, A.encodeEvent e.payload = .ok v → A.decodeEvent v = .ok e.payload)
    (henc : SerializedEvent.try_from A e = .ok s)
    (hno : ∀ u ∈ upcasters, u.can_upcast s.event_type s.event_version = false) :
    EventEnvelope.try_from A (s.upcast upcasters) = .ok e := by
  rw [upcast_of_no_match s upcasters hno]
  obtain ⟨pv, hpv, hs⟩ := SerializedEvent.try_from_ok A e s henc
  subst hs
  unfold EventEnvelope.try_from
  rw [hlaw pv hpv]
  simp only [metadataFromValue, metadataEntriesFromValue_map]

/-- C7: on a successfully encoding envelope, the produced record copies
the envelope's aggregate id and sequence, carries the aggregate type's
own name and the payload's self-described event type and version, and
holds the structural encodings of payload and metadata. -/
theorem C7_encoder_fields (A : Aggregate) (e : EventEnvelope A) (pv : Value)
    (henc : A.encodeEvent e.payload = .ok pv) :
    ∃ s, SerializedEvent.try_from A e = .ok s ∧
      s.aggregate_id = e.aggregate_id ∧
      s.sequence = e.sequence ∧
      s.aggregate_type = A.aggregate_type ∧
      s.event_type = A.event_type e.payload ∧
      s.event_version = A.event_version e.payload ∧
      s.payload = pv ∧
      metadataToValue e.metadata = .ok s.metadata := by
  refine ⟨{ aggregate_id := e.aggregate_id
            sequence := e.sequence
            aggregate_type := A.aggregate_type
            event_type := A.event_type e.payload
            event_version := A.event_version e.payload
            payload := pv
            metadata := .obj (e.metadata.map (fun kv => (kv.1, .str kv.2))) },
    ?_, rfl, rfl, rfl, rfl, rfl, rfl, rfl⟩
  unfold SerializedEvent.try_from
  rw [henc]
  rfl

/-- C8: a snapshot record whose stored aggregate state decodes
successfully converts to a load context with the record's aggregate id,
the decoded state, the sequence copied verbatim, and the snapshot
revision wrapped as present; no upcasting is involved. -/
theorem C8_snapshot_reconstruction (A : Aggregate) (snapshot : SerializedSnapshot)
    (st : A.State) (h : A.decodeState snapshot.aggregate = .ok st) :
    EventStoreAggregateContext.try_from A snapshot =
      .ok { aggregate_id := snapshot.aggregate_id
            aggregate := st
            current_sequence := snapshot.current_sequence
            current_snapshot := some snapshot.current_snapshot } := by
  unfold EventStoreAggregateContext.try_from
  rw [h]

/-- C9: single-record decoding never consults the record's
aggregate_type, event_type or event_version: two records agreeing on
aggregate id, sequence, payload and metadata decode to identical
results. -/
theorem C9_decode_ignores_type_tags (A : Aggregate) (r1 r2 : SerializedEvent)
    (hid : r1.aggregate_id = r2.aggregate_id) (hseq : r1.sequence = r2.sequence)
    (hp : r1.payload = r2.payload) (hm : r1.metadata = r2.metadata) :
    EventEnvelope.try_from A r1 = EventEnvelope.try_from A r2 := by
  unfold EventEnvelope.try_from
  rw [hid, hseq, hp, hm]

/-! ### Batch conversion: first-error atomicity and order preservation -/

theorem serialize_events_error_at (A : Aggregate) (pre post : List (EventEnvelope A))
    (e : EventEnvelope A) (pe : PersistenceError)
    (hpre : ∀ x ∈ pre, ∃ s, SerializedEvent.try_from A x = .ok s)
    (he : SerializedEvent.try_from A e = .error pe) :
    serialize_events A (pre ++ e :: post) = .error pe := by
  induction pre with
  | nil => simp [serialize_events, he]
  | cons x xs ih =>
    obtain ⟨s, hs⟩ := hpre x (List.mem_cons_self x xs)
    have hrest := ih (fun y hy => hpre y (List.mem_cons_of_mem x hy))
    simp [serialize_events, hs, hrest]

theorem serialize_events_ok_forall₂ (A : Aggregate) (events : List (EventEnvelope A))
    (h : ∀ x ∈ events, ∃ s, SerializedEvent.try_from A x = .ok s) :
    ∃ l, serialize_events A events = .ok l ∧
      List.Forall₂ (fun ev s => SerializedEvent.try_from A ev = .ok s) events l := by
  induction events with
  | nil => exact ⟨[], rfl, List.Forall₂.nil⟩
  | cons x xs ih =>
    obtain ⟨s, hs⟩ := h x (List.mem_cons_self x xs)
    obtain ⟨l, hl, hall⟩ := ih (fun y hy => h y (List.mem_cons_of_mem x hy))
    exact ⟨s :: l, by simp [serialize_events, hs, hl], List.Forall₂.cons hs hall⟩

theorem deserialize_events_loop_error_at (A : Aggregate) (pre post : List SerializedEvent)
    (r : SerializedEvent) (pe : PersistenceError)
    (hpre : ∀ x ∈ pre, ∃ env, EventEnvelope.try_from A x = .ok env)
    (he : EventEnvelope.try_from A r = .error pe) :
    deserialize_events_loop A (pre ++ r :: post) = .error pe := by
  induction pre with
  | nil => simp [deserialize_events_loop, he]
  | cons x xs ih =>
    obtain ⟨env, henv⟩ := hpre x (List.mem_cons_self x xs)
    have hrest := ih (fun y hy => hpre y (List.mem_cons_of_mem x hy))
    simp [deserialize_events_loop, henv, hrest]

theorem deserialize_events_loop_ok_forall₂ (A : Aggregate) (records : List SerializedEvent)
    (h : ∀ x ∈ records, ∃ env, EventEnvelope.try_from A x = .ok env) :
    ∃ l, deserialize_events_loop A records = .ok l ∧
      List.Forall₂ (fun r env => EventEnvelope.try_from A r = .ok env) records l := by
  induction records with
  | nil => exact ⟨[], rfl, List.Forall₂.nil⟩
  | cons r rs ih =>
    obtain ⟨env, henv⟩ := h r (List.mem_cons_self r rs)
    obtain ⟨l, hl, hall⟩ := ih (fun y hy => h y (List.mem_cons_of_mem r hy))
    exact ⟨env :: l, by simp [deserialize_events_loop, henv, hl], List.Forall₂.cons henv hall⟩

theorem deserialize_events_loop_of_ok (A : Aggregate) :
    ∀ (records : List SerializedEvent) (out : List (EventEnvelope A)),
      deserialize_events_loop A records = .ok out →
      List.Forall₂ (fun r env => EventEnvelope.try_from A r = .ok env) records out := by
  intro records
  induction records with
  | nil =>
    intro out h
    simp only [deserialize_events_loop, Except.ok.injEq] at h
    subst h
    exact List.Forall₂.nil
  | cons r rs ih =>
    intro out h
    unfold deserialize_events_loop at h
    cases hr : EventEnvelope.try_from A r with
    | error err => rw [hr] at h; exact absurd h (by simp)
    | ok env =>
      rw [hr] at h
      cases hrest : deserialize_events_loop A rs with
      | error err => rw [hrest] at h; exact absurd h (by simp)
      | ok tail =>
        rw [hrest] at h
        simp only [Except.ok.injEq] at h
        subst h
        exact List.Forall₂.cons hr (ih tail hrest)

theorem deserialize_events_of_ok (A : Aggregate) (records : List SerializedEvent)
    (upcasters : List EventUpcaster) (out : List (EventEnvelope A))
    (h : deserialize_events A records upcasters = .ok out) :
    List.Forall₂ (fun r env => EventEnvelope.try_from A (r.upcast upcasters) = .ok env)
      records out := by
  unfold deserialize_events at h
  exact List.forall₂_map_left_iff.mp (deserialize_events_loop_of_ok A _ out h)

/-- C3: both batch conversions are all-or-nothing with first-error
semantics. If every item before some failing item converts, the batch
returns exactly that item's error (and, the result being a single
`Except`, no output sequence at all); if every item converts, the batch
returns all items, converted in order. This holds for `serialize_events`
and, with the per-item conversion preceded by the upcaster chain, for
`deserialize_events`. -/
theorem C3_atomic_batch (A : Aggregate) (upcasters : List EventUpcaster) :
    (∀ (pre post : List (EventEnvelope A)) (e : EventEnvelope A) (pe : PersistenceError),
      (∀ x ∈ pre, ∃ s, SerializedEvent.try_from A x = .ok s) →
      SerializedEvent.try_from A e = .error pe →
      serialize_events A (pre ++ e :: post) = .error pe) ∧
    (∀ events : List (EventEnvelope A),
      (∀ x ∈ events, ∃ s, SerializedEvent.try_from A x = .ok s) →
      ∃ l, serialize_events A events = .ok l ∧
        List.Forall₂ (fun ev s => SerializedEvent.try_from A ev = .ok s) events l) ∧
    (∀ (pre post : List SerializedEvent) (r : SerializedEvent) (pe : PersistenceError),
      (∀ x ∈ pre, ∃ env : EventEnvelope A, EventEnvelope.try_from A (x.upcast upcasters) = .ok env) →
      EventEnvelope.try_from A (r.upcast upcasters) = .error pe →
      deserialize_events A (pre ++ r :: post) upcasters = .error pe) ∧
    (∀ records : List SerializedEvent,
      (∀ x ∈ records, ∃ env : EventEnvelope A, EventEnvelope.try_from A (x.upcast upcasters) = .ok env) →
      ∃ l, deserialize_events A records upcasters = .ok l ∧
        List.Forall₂ (fun r env => EventEnvelope.try_from A (r.upcast upcasters) = .ok env)
          records l) := by
  refine ⟨serialize_events_error_at A, serialize_events_ok_forall₂ A, ?_, ?_⟩
  · intro pre post r pe hpre he
    unfold deserialize_events
    rw [List.map_append, List.map_cons]
    refine deserialize_events_loop_error_at A _ _ _ pe ?_ he
    intro x hx
    obtain ⟨y, hy, rfl⟩ := List.mem_map.mp hx
    exact hpre y hy
  · intro records h
    obtain ⟨l, hl, hall⟩ :=
      deserialize_events_loop_ok_forall₂ A (records.map (fun r => r.upcast upcasters))
        (by
          intro x hx
          obtain ⟨y, hy, rfl⟩ := List.mem_map.mp hx
          exact h y hy)
    exact ⟨l, hl, List.forall₂_map_left_iff.mp hall⟩

/-- C4 (amended): a successful batch decode of `N` records returns
exactly `N` envelopes, the `i`-th output decoded from the `i`-th input,
with each output envelope's sequence equal to the corresponding
post-upcast record's sequence — unchanged from the stored record
whenever no rule rewrites it. -/
theorem C4_order_preservation (A : Aggregate) (records : List SerializedEvent)
    (upcasters : List EventUpcaster) (out : List (EventEnvelope A))
    (h : deserialize_events A records upcasters = .ok out) :
    out.length = records.length ∧
    List.Forall₂ (fun r env => env.sequence = (r.upcast upcasters).sequence) records out := by
  have hall := deserialize_events_of_ok A records upcasters out h
  refine ⟨hall.length_eq.symm, hall.imp ?_⟩
  intro r env hr
  exact (EventEnvelope.try_from_ok_fields A _ env hr).2

/-- C10: the identity fields of every decoded envelope come from the
post-upcast record: after a successful batch decode, the `i`-th output
envelope's aggregate id and sequence equal those of the `i`-th input
record run through the upcaster chain — so a transform that rewrites
them changes the envelope the caller receives. -/
theorem C10_identity_fields_post_upcast (A : Aggregate) (records : List SerializedEvent)
    (upcasters : List EventUpcaster) (out : List (EventEnvelope A))
    (h : deserialize_events A records upcasters = .ok out) :
    List.Forall₂ (fun r env =>
      env.aggregate_id = (r.upcast upcasters).aggregate_id ∧
      env.sequence = (r.upcast upcasters).sequence) records out :=
  (deserialize_events_of_ok A records upcasters out h).imp
    (fun _ _ hr => EventEnvelope.try_from_ok_fields A _ _ hr)

/-! ### Further concrete fixtures and the per-claim witnesses -/

/-- A concrete aggregate instance over string events with the evident
structural codec, used to evaluate the conversions on closed inputs. -/
def stringAggregate : Aggregate where
  Event := String
  State := String
  aggregate_type := "StringAgg"
  event_type := fun _ => "StringEvent"
  event_version := fun _ => "1.0"
  encodeEvent := fun s => .ok (.str s)
  decodeEvent := fun v =>
    match v with
    | .str s => .ok s
    | _ => .error (.deserializationError "expected string payload")
  decodeState := fun v =>
    match v with
    | .str s => .ok s
    | _ => .error (.deserializationError "expected string state")

/-- A concrete aggregate instance whose encoder rejects the empty string,
used to exercise the failing branches of batch conversion. -/
def fallibleAggregate : Aggregate where
  Event := String
  State := String
  aggregate_type := "FallibleAgg"
  event_type := fun _ => "StringEvent"
  event_version := fun _ => "1.0"
  encodeEvent := fun s =>
    if s = "" then .error (.serializationError "empty event") else .ok (.str s)
  decodeEvent := fun v =>
    match v with
    | .str s => .ok s
    | _ => .error (.deserializationError "expected string payload")
  decodeState := fun v =>
    match v with
    | .str s => .ok s
    | _ => .error (.deserializationError "expected string state")

/-- A sample typed envelope over the string aggregate. -/
def stringEnvelope : EventEnvelope stringAggregate where
  aggregate_id := "agg-1"
  sequence := 1
  payload := "hello"
  metadata := [("corr", "abc")]

/-- The serialized record produced by encoding `stringEnvelope`. -/
def stringEncodedRecord : SerializedEvent where
  aggregate_id := "agg-1"
  sequence := 1
  aggregate_type := "StringAgg"
  event_type := "StringEvent"
  event_version := "1.0"
  payload := .str "hello"
  metadata := .obj [("corr", .str "abc")]

/-- A stored string-aggregate record with sequence 1. -/
def stringRecordSeq1 : SerializedEvent where
  aggregate_id := "agg-1"
  sequence := 1
  aggregate_type := "StringAgg"
  event_type := "StringEvent"
  event_version := "1.0"
  payload := .str "hello"
  metadata := .obj []

/-- An upcaster whose transform rewrites the record's sequence number: it
matches every record and bumps the sequence by one. -/
def sequenceBumpRule : EventUpcaster where
  can_upcast := fun _ _ => true
  upcast := fun e => { e with sequence := e.sequence + 1 }

/-- A sample snapshot record for the string aggregate. -/
def stringSnapshot : SerializedSnapshot where
  aggregate_id := "agg-1"
  aggregate := .str "state-1"
  current_sequence := 5
  current_snapshot := 2

/-- Witness for C1: the concrete envelope encodes to
`stringEncodedRecord`, and decoding it after the (non-matching) sample
chain returns the envelope itself. -/
theorem C1_round_trip_witness :
    SerializedEvent.try_from stringAggregate stringEnvelope = .ok stringEncodedRecord ∧
    EventEnvelope.try_from stringAggregate (stringEncodedRecord.upcast [ruleV1toV2]) =
      .ok stringEnvelope := by
  refine ⟨rfl, C1_round_trip stringAggregate stringEnvelope stringEncodedRecord [ruleV1toV2]
    ?_ rfl ?_⟩
  · intro v hv
    cases hv
    rfl
  · intro u hu
    rcases List.mem_singleton.mp hu with rfl
    decide

/-- Witness for C3: with the fallible aggregate and the empty chain, a
batch with a failing middle item returns exactly its error, and an
all-good batch returns every converted item, on both directions. -/
theorem C3_atomic_batch_witness :
    serialize_events fallibleAggregate
        [{ stringEnvelope with payload := "good" }, { stringEnvelope with payload := "" },
          { stringEnvelope with payload := "after" }] =
      .error (.serializationError "empty event") ∧
    (∃ l, serialize_events fallibleAggregate [{ stringEnvelope with payload := "good" }] = .ok l ∧
      List.Forall₂ (fun ev s => SerializedEvent.try_from fallibleAggregate ev = .ok s)
        [{ stringEnvelope with payload := "good" }] l) ∧
    deserialize_events fallibleAggregate
        [stringRecordSeq1, { stringRecordSeq1 with payload := .num 7 }] [] =
      .error (.deserializationError "expected string payload") ∧
    (∃ l, deserialize_events fallibleAggregate [stringRecordSeq1] [] = .ok l ∧
      List.Forall₂
        (fun r env => EventEnvelope.try_from fallibleAggregate (r.upcast []) = .ok env)
        [stringRecordSeq1] l) := by
  obtain ⟨hserr, hsok, hderr, hdok⟩ := C3_atomic_batch fallibleAggregate []
  refine ⟨?_, ?_, ?_, ?_⟩
  · refine hserr [{ stringEnvelope with payload := "good" }]
      [{ stringEnvelope with payload := "after" }] { stringEnvelope with payload := "" } _ ?_ rfl
    intro x hx
    rcases List.mem_singleton.mp hx with rfl
    exact ⟨_, rfl⟩
  · refine hsok _ ?_
    intro x hx
    rcases List.mem_singleton.mp hx with rfl
    exact ⟨_, rfl⟩
  · refine hderr [stringRecordSeq1] [] { stringRecordSeq1 with payload := .num 7 } _ ?_ rfl
    intro x hx
    rcases List.mem_singleton.mp hx with rfl
    exact ⟨_, rfl⟩
  · refine hdok _ ?_
    intro x hx
    rcases List.mem_singleton.mp hx with rfl
    exact ⟨_, rfl⟩

/-- Counterexample to C4 as stated: on this input the batch decode
succeeds, yet the output envelope's sequence is 2 while the input
record's stored sequence is 1, because the upcaster chain rewrote the
sequence before decoding. -/
theorem C4_counterexample :
    deserialize_events stringAggregate [stringRecordSeq1] [sequenceBumpRule] =
      .ok [{ aggregate_id := "agg-1", sequence := 2, payload := "hello", metadata := [] }] ∧
    ¬ (2 = stringRecordSeq1.sequence) :=
  ⟨rfl, by decide⟩

/-- Witness for the amended C4: on the sequence-rewriting chain the
batch decode returns one envelope whose sequence matches the post-upcast
record. -/
theorem C4_order_preservation_witness :
    ([{ aggregate_id := "agg-1", sequence := 2, payload := "hello", metadata := [] }] :
        List (EventEnvelope stringAggregate)).length = [stringRecordSeq1].length ∧
    List.Forall₂ (fun r env => env.sequence = (r.upcast [sequenceBumpRule]).sequence)
      [stringRecordSeq1]
      ([{ aggregate_id := "agg-1", sequence := 2, payload := "hello", metadata := [] }] :
        List (EventEnvelope stringAggregate)) :=
  C4_order_preservation stringAggregate [stringRecordSeq1] [sequenceBumpRule] _ rfl

/-- Witness for C7: encoding the concrete envelope yields a record with
exactly the contracted fields. -/
theorem C7_encoder_fields_witness :
    ∃ s, SerializedEvent.try_from stringAggregate stringEnvelope = .ok s ∧
      s.aggregate_id = stringEnvelope.aggregate_id ∧
      s.sequence = stringEnvelope.sequence ∧
      s.aggregate_type = stringAggregate.aggregate_type ∧
      s.event_type = stringAggregate.event_type stringEnvelope.payload ∧
      s.event_version = stringAggregate.event_version stringEnvelope.payload ∧
      s.payload = .str "hello" ∧
      metadataToValue stringEnvelope.metadata = .ok s.metadata :=
  C7_encoder_fields stringAggregate stringEnvelope (.str "hello") rfl

/-- Witness for C8: the concrete snapshot record reconstructs to the
expected load context. -/
theorem C8_snapshot_reconstruction_witness :
    EventStoreAggregateContext.try_from stringAggregate stringSnapshot =
      .ok { aggregate_id := "agg-1"
            aggregate := "state-1"
            current_sequence := 5
            current_snapshot := some 2 } :=
  C8_snapshot_reconstruction stringAggregate stringSnapshot "state-1" rfl

/-- Witness for C9: rewriting all three type tags of the concrete record
leaves the decode result unchanged. -/
theorem C9_decode_ignores_type_tags_witness :
    EventEnvelope.try_from stringAggregate stringRecordSeq1 =
      EventEnvelope.try_from stringAggregate
        { stringRecordSeq1 with
          aggregate_type := "Other"
          event_type := "OtherEvent"
          event_version := "9.9" } :=
  C9_decode_ignores_type_tags stringAggregate _ _ rfl rfl rfl rfl

/-- Witness for C10: with the sequence-rewriting chain, the decoded
envelope's identity fields equal those of the post-upcast record. -/
theorem C10_identity_fields_post_upcast_witness :
    List.Forall₂ (fun r env =>
        env.aggregate_id = (r.upcast [sequenceBumpRule]).aggregate_id ∧
        env.sequence = (r.upcast [sequenceBumpRule]).sequence)
      [stringRecordSeq1]
      ([{ aggregate_id := "agg-1", sequence := 2, payload := "hello", metadata := [] }] :
        List (EventEnvelope stringAggregate)) :=
  C10_identity_fields_post_upcast stringAggregate [stringRecordSeq1] [sequenceBumpRule] _ rfl

end Cqrs
